import Mathlib

/-!
Shallow embedding of the document marshalling and query orchestration layer
of the chroma JS client (src/clients/js/src/Documents.ts and
src/clients/js/src/ChromaClient.ts), together with theorems settling the
specification claims about it.

Modelling conventions:
* JS numbers are modelled as `Int` (no arithmetic is performed on them).
* A field that may be `undefined` is an `Option`.
* Thrown JS `Error`s become `Except.error` values of the inductive
  `ChromaError`; each constructor carries the exact message string the
  source builds.
* The pluggable embedding capability (`IEmbeddingFunction.generate`) is a
  function argument `gen : List String → List (List Int)`; functions that
  may invoke it additionally return the list of argument lists of the
  calls they made, so that "invoked exactly once / not invoked" is
  expressible.
-/

namespace Chroma

/-- Scalar metadata values: `Metadata = Record<string, string | number | boolean>`. -/
inductive MetaValue where
  | str (s : String)
  | num (n : Int)
  | boo (b : Bool)
deriving DecidableEq, Repr

/-- A metadata record, modelled as an association list. -/
abbrev Metadata := List (String × MetaValue)

/-- `BaseChromaDoc` from types.ts: all four fields optional. -/
structure BaseChromaDoc where
  id : Option String
  embedding : Option (List Int)
  metadata : Option Metadata
  contents : Option String
deriving DecidableEq, Repr

/-- `ChromaDoc` from types.ts: like `BaseChromaDoc` but the id is required. -/
structure ChromaDoc where
  id : String
  embedding : Option (List Int)
  metadata : Option Metadata
  contents : Option String
deriving DecidableEq, Repr

/-- The errors thrown by the modelled code, each carrying the exact message
string built by the source. -/
inductive ChromaError where
  | duplicateIdError (msg : String)
  | lengthMismatchError (msg : String)
  | missingContentError (msg : String)
deriving DecidableEq, Repr

/-- The result record built by `docsToParallelArrays`: four index-aligned
arrays, all present. -/
structure ParallelArrays where
  ids : List String
  embeddings : List (Option (List Int))
  documents : List (Option String)
  metadatas : List (Option Metadata)
deriving DecidableEq, Repr

/-- The loop state of `docsToParallelArrays`: the accumulated result, the
`idSet` of accepted ids and the `duplicateIds` set (both JS `Set`s,
modelled as insertion-ordered duplicate-free lists). -/
structure EncodeState where
  result : ParallelArrays
  idSet : List String
  duplicateIds : List String
deriving DecidableEq, Repr

/-- JS `Set.add`: append unless already present (insertion order kept). -/
def setAdd (s : List String) (x : String) : List String :=
  if s.contains x then s else s ++ [x]

/-- One iteration of the `for (const doc of documents)` loop in
`docsToParallelArrays`.  Note that the source never calls `idSet.add`, so
the `idSet` field is left unchanged on every path, exactly as in the code. -/
def encodeStep (s : EncodeState) (doc : ChromaDoc) : EncodeState :=
  if s.idSet.contains doc.id then
    { s with duplicateIds := setAdd s.duplicateIds doc.id }
  else if s.duplicateIds.length > 0 then
    s
  else
    { s with result :=
        { ids := s.result.ids ++ [doc.id]
          embeddings := s.result.embeddings ++ [doc.embedding]
          documents := s.result.documents ++ [doc.contents]
          metadatas := s.result.metadatas ++ [doc.metadata] } }

/-- The whole loop of `docsToParallelArrays`. -/
def encodeLoop : EncodeState → List ChromaDoc → EncodeState
  | s, [] => s
  | s, doc :: rest => encodeLoop (encodeStep s doc) rest

/-- `docsToParallelArrays` from Documents.ts. -/
def docsToParallelArrays (documents : List ChromaDoc) :
    Except ChromaError ParallelArrays :=
  let s := encodeLoop ⟨⟨[], [], [], []⟩, [], []⟩ documents
  if s.duplicateIds.length > 0 then
    .error (.duplicateIdError
      ("Duplicate ids found: " ++ String.intercalate ", " s.duplicateIds))
  else
    .ok s.result

/-- The argument record of `parallelArraysToDocs`.  The `ids` array is
required; the other three are optional and, when present, may hold
`undefined`/`null` entries (as happens both for the record produced by
`docsToParallelArrays` and for per-query server response slices). -/
structure ParallelArraysInput where
  ids : List String
  embeddings : Option (List (Option (List Int)))
  documents : Option (List (Option String))
  metadatas : Option (List (Option Metadata))
deriving DecidableEq, Repr

/-- The truthiness-guarded length test `arr && ids.length !== arr.length`
(an absent array is falsy; a present array, even empty, is truthy). -/
def optLenMismatch {α : Type} (n : Nat) : Option (List α) → Bool
  | none => false
  | some l => n != l.length

/-- `parallelArraysToDocs` from Documents.ts.  `arr?.[index]` is
`(arr.bind fun l => l[index]?).join`: absent array, out-of-range index and
an undefined entry all yield `none`. -/
def parallelArraysToDocs (p : ParallelArraysInput) :
    Except ChromaError (List ChromaDoc) :=
  if optLenMismatch p.ids.length p.embeddings
      || optLenMismatch p.ids.length p.metadatas
      || optLenMismatch p.ids.length p.documents then
    .error (.lengthMismatchError
      "ids, embeddings, metadatas, and documents must all be the same length")
  else
    .ok (p.ids.mapIdx fun index id =>
      { id := id
        embedding := (p.embeddings.bind fun l => l[index]?).join
        metadata := (p.metadatas.bind fun l => l[index]?).join
        contents := (p.documents.bind fun l => l[index]?).join })

/-- JS truthiness of an optional string: `undefined` and `""` are falsy. -/
def jsFalsyStr : Option String → Bool
  | none => true
  | some s => s == ""

/-- The test of the first filter in `computeEmbeddings`:
`!doc.contents && !doc.embedding` (an array is always truthy, so only an
absent embedding is falsy). -/
def missingBoth (d : BaseChromaDoc) : Bool :=
  jsFalsyStr d.contents && d.embedding.isNone

/-- The test of the second filter in `computeEmbeddings`: `!doc.embedding`. -/
def missingEmbedding (d : BaseChromaDoc) : Bool :=
  d.embedding.isNone

/-- JS `Array.prototype.join` over possibly-undefined ids: an undefined
entry is rendered as the empty string. -/
def renderIds (ids : List (Option String)) : String :=
  String.intercalate ", " (ids.map fun o => o.getD "")

/-- The in-place assignment loop of `computeEmbeddings`
(`docsMissingEmbeddings.map((doc, index) => doc.embedding = embeddings[index])`):
walking the documents in order, each embedding-less document receives the
next generated vector (or `undefined` when the generated list is too
short), every other document is untouched. -/
def assignEmbeddings : List BaseChromaDoc → List (List Int) → List BaseChromaDoc
  | [], _ => []
  | d :: ds, vecs =>
    if d.embedding.isNone then
      { d with embedding := vecs.head? } :: assignEmbeddings ds vecs.tail
    else
      d :: assignEmbeddings ds vecs

/-- `computeEmbeddings` from Documents.ts, instrumented with a log of the
argument lists of the `embeddingFunction.generate` calls it performs. -/
def computeEmbeddings (documents : List BaseChromaDoc)
    (gen : List String → List (List Int)) :
    Except ChromaError (List BaseChromaDoc) × List (List String) :=
  let docsWithoutContentsOrEmbeddings := documents.filter missingBoth
  if docsWithoutContentsOrEmbeddings.length > 0 then
    (.error (.missingContentError
      ("The following documents have neither contents nor embeddings: " ++
        renderIds (docsWithoutContentsOrEmbeddings.map BaseChromaDoc.id))), [])
  else
    let docsMissingEmbeddings := documents.filter missingEmbedding
    if docsMissingEmbeddings.length = 0 then
      (.ok documents, [])
    else
      let texts := docsMissingEmbeddings.map fun d => d.contents.getD ""
      (.ok (assignEmbeddings documents (gen texts)), [texts])

/-- `DocQuery` from types.ts: `string | Embedding | QueryDoc`. -/
inductive DocQuery where
  | text (s : String)
  | vec (e : List Int)
  | doc (d : BaseChromaDoc)
deriving DecidableEq, Repr

/-- `docQueryToQueryDoc` from Documents.ts: `Array.isArray` sends a raw
vector to an embedding-only doc, `typeof === "string"` sends text to a
contents-only doc, and an explicit query doc passes through. -/
def docQueryToQueryDoc : DocQuery → BaseChromaDoc
  | .vec e => ⟨none, some e, none, none⟩
  | .text s => ⟨none, none, none, some s⟩
  | .doc d => d

/-- The caller-visible argument of `queryDocuments`: a single `DocQuery`
or an ordered batch of them. -/
inductive QueryInput where
  | single (q : DocQuery)
  | batch (qs : List DocQuery)
deriving DecidableEq, Repr

/-- Modelled from the spec: `toArray` (utils.ts, not under src/) wraps a
non-batch input into a one-element batch and leaves a batch unchanged
("the caller-visible input may be a single DocQuery or an ordered batch"). -/
def toArray : QueryInput → List DocQuery
  | .single q => [q]
  | .batch qs => qs

/-- JS `Array.isArray` applied to the raw `query` value, as in the final
`Array.isArray(query) ? result : result[0]` of `queryDocuments`.  A batch
is an array, and so is a single raw embedding vector. -/
def jsIsArray : QueryInput → Bool
  | .single (.vec _) => true
  | .single _ => false
  | .batch _ => true

/-- The `getNearestNeighbors` response shape from types.ts
(`ids` nested per query, the rest optional at top level and indexed with
`?.[index]` by the client). -/
structure QueryResponse where
  ids : List (List String)
  embeddings : Option (List (List (List Int)))
  documents : Option (List (List (Option String)))
  metadatas : Option (List (List (Option Metadata)))
  distances : Option (List (List Int))
deriving DecidableEq, Repr

/-- One ranked result: a reconstructed document paired with its distance. -/
structure RankedResult where
  doc : ChromaDoc
  distance : Int
deriving DecidableEq, Repr

/-- `SingleQueryResult` from types.ts.  `queryDoc` is `queryDocs[index]`,
which is `undefined` when the server returns more entries than there were
queries, hence the `Option`. -/
structure SingleQueryResult where
  queryDoc : Option BaseChromaDoc
  results : List RankedResult
deriving DecidableEq, Repr

/-- `QueryResult` from types.ts, as returned by the final
`Array.isArray(query) ? result : result[0]`: either the whole bundle list
or its (possibly undefined) first element. -/
inductive QueryResult where
  | single (r : Option SingleQueryResult)
  | multi (rs : List SingleQueryResult)
deriving DecidableEq, Repr

/-- The argument record passed to `parallelArraysToDocs` for query entry
`index` of the response (`response.embeddings?.[index]` and friends). -/
def queryEntryInput (resp : QueryResponse) (index : Nat) (ids : List String) :
    ParallelArraysInput :=
  { ids := ids
    embeddings := (resp.embeddings.bind fun l => l[index]?).map fun es => es.map some
    documents := resp.documents.bind fun l => l[index]?
    metadatas := resp.metadatas.bind fun l => l[index]? }

/-- The body of `response.ids.map((ids, index) => ...)` in
`queryDocuments`: decode the per-query parallel arrays and zip each
document with its distance, `response.distances?.[index]?.[i] ?? 0`.
Because the source's `computeEmbeddings` fills embeddings into the query
doc objects in place, the `queryDoc` field of a bundle is the resolved
document (the same JS object as the normalized one). -/
def buildBundle (resolvedDocs : List BaseChromaDoc) (resp : QueryResponse)
    (index : Nat) (ids : List String) :
    Except ChromaError SingleQueryResult :=
  match parallelArraysToDocs (queryEntryInput resp index ids) with
  | .error e => .error e
  | .ok docs =>
    .ok { queryDoc := resolvedDocs[index]?
          results := docs.mapIdx fun i doc =>
            { doc := doc
              distance :=
                ((resp.distances.bind fun l => l[index]?).bind
                  fun ds => ds[i]?).getD 0 } }

/-- The indexed traversal underlying `response.ids.map((ids, index) => ...)`:
a thrown error from any entry aborts the whole map. -/
def buildBundlesGo (resolvedDocs : List BaseChromaDoc) (resp : QueryResponse) :
    Nat → List (List String) → Except ChromaError (List SingleQueryResult)
  | _, [] => .ok []
  | index, ids :: rest =>
    match buildBundle resolvedDocs resp index ids with
    | .error e => .error e
    | .ok b =>
      match buildBundlesGo resolvedDocs resp (index + 1) rest with
      | .error e => .error e
      | .ok bs => .ok (b :: bs)

/-- `response.ids.map((ids, index) => ...)` over the whole response. -/
def buildBundles (resolvedDocs : List BaseChromaDoc) (resp : QueryResponse) :
    Except ChromaError (List SingleQueryResult) :=
  buildBundlesGo resolvedDocs resp 0 resp.ids

/-- `queryDocuments` from ChromaClient.ts.  `gen` is the collection's
embedding capability and `api` the `getNearestNeighbors` transport, a
function of the `query_embeddings` field.  The second component is the log
of embedding-capability calls. -/
def queryDocuments (query : QueryInput)
    (gen : List String → List (List Int))
    (api : List (Option (List Int)) → QueryResponse) :
    Except ChromaError QueryResult × List (List String) :=
  let queryDocs := (toArray query).map docQueryToQueryDoc
  match computeEmbeddings queryDocs gen with
  | (.error e, calls) => (.error e, calls)
  | (.ok resolved, calls) =>
    let response := api (resolved.map BaseChromaDoc.embedding)
    match buildBundles resolved response with
    | .error e => (.error e, calls)
    | .ok result =>
      (.ok (if jsIsArray query then .multi result else .single result[0]?), calls)

/-- Shape classifier for a query result: is it the unwrapped single form? -/
def isSingleResult : QueryResult → Bool
  | .single _ => true
  | .multi _ => false

/-- View of the record produced by `docsToParallelArrays` as an argument
for `parallelArraysToDocs` (all four arrays present), as happens when the
encoder's output is decoded. -/
def encodedToInput (p : ParallelArrays) : ParallelArraysInput :=
  ⟨p.ids, some p.embeddings, some p.documents, some p.metadatas⟩

/-- The spec's wording of the decode guard: some present optional array
has a length different from the ids array's length. -/
def hasLengthMismatch (p : ParallelArraysInput) : Prop :=
  (∃ l, p.embeddings = some l ∧ l.length ≠ p.ids.length) ∨
    (∃ l, p.metadatas = some l ∧ l.length ≠ p.ids.length) ∨
    (∃ l, p.documents = some l ∧ l.length ≠ p.ids.length)

/-- The index a document at position `i` would occupy within the
embedding-less subset (the subset keeps the input's relative order). -/
def missingRank (docs : List BaseChromaDoc) (i : Nat) : Nat :=
  ((docs.take i).filter missingEmbedding).length

section EncodeLemmas

/-- Since the source never calls `idSet.add`, the encode loop starting
from an empty `idSet` detects nothing and appends every document. -/
lemma encodeLoop_spec (docs : List ChromaDoc) (i0 : List String)
    (e0 : List (Option (List Int))) (d0 : List (Option String))
    (m0 : List (Option Metadata)) :
    encodeLoop ⟨⟨i0, e0, d0, m0⟩, [], []⟩ docs =
      ⟨⟨i0 ++ docs.map ChromaDoc.id, e0 ++ docs.map ChromaDoc.embedding,
        d0 ++ docs.map ChromaDoc.contents, m0 ++ docs.map ChromaDoc.metadata⟩,
        [], []⟩ := by
  induction docs generalizing i0 e0 d0 m0 with
  | nil => simp [encodeLoop]
  | cons d ds ih =>
    simp [encodeLoop, encodeStep, ih]

/-- `docsToParallelArrays` never fails and returns the four field maps of
its input, duplicates included. -/
lemma docsToParallelArrays_eq (docs : List ChromaDoc) :
    docsToParallelArrays docs =
      .ok ⟨docs.map ChromaDoc.id, docs.map ChromaDoc.embedding,
        docs.map ChromaDoc.contents, docs.map ChromaDoc.metadata⟩ := by
  simp [docsToParallelArrays, encodeLoop_spec]

/-- Decoding the encoder's output reconstructs the input list. -/
lemma parallelArraysToDocs_encoded (docs : List ChromaDoc) :
    parallelArraysToDocs
      ⟨docs.map ChromaDoc.id, some (docs.map ChromaDoc.embedding),
        some (docs.map ChromaDoc.contents), some (docs.map ChromaDoc.metadata)⟩ =
      .ok docs := by
  rw [parallelArraysToDocs]
  simp only [optLenMismatch, List.length_map, bne_self_eq_false, Bool.or_self,
    Bool.false_or, if_false]
  refine congrArg Except.ok (List.ext_getElem? fun i => ?_)
  rw [List.getElem?_mapIdx, List.getElem?_map]
  cases h : docs[i]? with
  | none => rfl
  | some d =>
    simp [Option.bind, List.getElem?_map, h, Option.join]

end EncodeLemmas

/-- C1: for any input containing a repeated id, `docsToParallelArrays` is
claimed to fail with `DuplicateIdError` naming the repeated ids and to
return no partial value.  The code never populates `idSet`
(`idSet.add` is never called), so the duplicate branch is unreachable:
on the spec's own scenario `[{id:"a"},{id:"b"},{id:"a"}]` the encoder
succeeds and returns the duplicate id twice; in fact it succeeds on every
input. -/
theorem docsToParallelArrays_accepts_duplicates :
    docsToParallelArrays
        [⟨"a", none, none, some "x"⟩, ⟨"b", none, none, some "y"⟩,
          ⟨"a", none, none, some "z"⟩] =
      .ok ⟨["a", "b", "a"], [none, none, none],
        [some "x", some "y", some "z"], [none, none, none]⟩ ∧
    ∀ docs : List ChromaDoc, docsToParallelArrays docs =
      .ok ⟨docs.map ChromaDoc.id, docs.map ChromaDoc.embedding,
        docs.map ChromaDoc.contents, docs.map ChromaDoc.metadata⟩ :=
  ⟨rfl, docsToParallelArrays_eq⟩

/-- C2: for a document sequence with pairwise distinct ids, encoding
succeeds, the encoded ids array has the input's length, and decoding the
encoded record returns the original sequence field-for-field in order. -/
theorem decode_encode_roundtrip (docs : List ChromaDoc)
    (hnodup : (docs.map ChromaDoc.id).Nodup) :
    ∃ pa, docsToParallelArrays docs = .ok pa ∧
      pa.ids.length = docs.length ∧
      parallelArraysToDocs (encodedToInput pa) = .ok docs := by
  refine ⟨_, docsToParallelArrays_eq docs, by simp, ?_⟩
  exact parallelArraysToDocs_encoded docs

/-- C2 witness. -/
theorem decode_encode_roundtrip_witness :
    ∃ pa, docsToParallelArrays
        [⟨"u", some [1, 2], some [("k", .num 3)], some "c"⟩,
          ⟨"v", none, none, none⟩] = .ok pa ∧
      pa.ids.length = 2 ∧
      parallelArraysToDocs (encodedToInput pa) =
        .ok [⟨"u", some [1, 2], some [("k", .num 3)], some "c"⟩,
          ⟨"v", none, none, none⟩] :=
  decode_encode_roundtrip
    [⟨"u", some [1, 2], some [("k", .num 3)], some "c"⟩, ⟨"v", none, none, none⟩]
    (by decide)

section DecodeLemmas

/-- The decode guard agrees with the spec's length-mismatch predicate. -/
lemma decode_guard_iff (p : ParallelArraysInput) :
    (optLenMismatch p.ids.length p.embeddings
        || optLenMismatch p.ids.length p.metadatas
        || optLenMismatch p.ids.length p.documents) = true ↔
      hasLengthMismatch p := by
  unfold hasLengthMismatch
  cases p.embeddings <;> cases p.metadatas <;> cases p.documents <;>
    simp [optLenMismatch, bne_iff_ne, ne_comm] <;> tauto

end DecodeLemmas

/-- C8: `parallelArraysToDocs` fails (with `LengthMismatchError`) exactly
when some present optional array disagrees in length with the ids array;
otherwise it returns one document per id, each field read off the
corresponding array at that index, and absent for each field whose array
was not provided. -/
theorem parallelArraysToDocs_spec (p : ParallelArraysInput) :
    ((∃ msg, parallelArraysToDocs p = .error (.lengthMismatchError msg)) ↔
      hasLengthMismatch p) ∧
    (¬ hasLengthMismatch p →
      ∃ docs : List ChromaDoc, parallelArraysToDocs p = .ok docs ∧
        docs.length = p.ids.length ∧
        (∀ (i : Nat) (id_i : String), p.ids[i]? = some id_i →
          docs[i]? = some
            (⟨id_i, (p.embeddings.bind fun l => l[i]?).join,
              (p.metadatas.bind fun l => l[i]?).join,
              (p.documents.bind fun l => l[i]?).join⟩ : ChromaDoc)) ∧
        (p.embeddings = none → ∀ d ∈ docs, d.embedding = none) ∧
        (p.metadatas = none → ∀ d ∈ docs, d.metadata = none) ∧
        (p.documents = none → ∀ d ∈ docs, d.contents = none)) := by
  by_cases hb : (optLenMismatch p.ids.length p.embeddings
      || optLenMismatch p.ids.length p.metadatas
      || optLenMismatch p.ids.length p.documents) = true
  · rw [parallelArraysToDocs, if_pos hb]
    have hm := (decode_guard_iff p).mp hb
    exact ⟨⟨fun _ => hm, fun _ => ⟨_, rfl⟩⟩, fun hc => absurd hm hc⟩
  · have hm : ¬hasLengthMismatch p := fun hc => hb ((decode_guard_iff p).mpr hc)
    rw [parallelArraysToDocs, if_neg hb]
    refine ⟨⟨fun ⟨msg, hmsg⟩ => Except.noConfusion hmsg, fun hc => absurd hc hm⟩,
      fun _ => ?_⟩
    refine ⟨p.ids.mapIdx fun index id =>
        ⟨id, (p.embeddings.bind fun l => l[index]?).join,
          (p.metadatas.bind fun l => l[index]?).join,
          (p.documents.bind fun l => l[index]?).join⟩, rfl, by simp, ?_, ?_, ?_, ?_⟩
    · intro i id_i hid
      rw [List.getElem?_mapIdx, hid]
      rfl
    · intro hnone d hd
      obtain ⟨i, hi, rfl⟩ := List.exists_of_mem_mapIdx hd
      simp [hnone]
    · intro hnone d hd
      obtain ⟨i, hi, rfl⟩ := List.exists_of_mem_mapIdx hd
      simp [hnone]
    · intro hnone d hd
      obtain ⟨i, hi, rfl⟩ := List.exists_of_mem_mapIdx hd
      simp [hnone]

/-- C8 witness: the spec's scenario `{ids:["x","y"], embeddings:[[1,2,3]]}`
fails, and a well-formed record decodes pointwise. -/
theorem parallelArraysToDocs_spec_witness :
    ((∃ msg, parallelArraysToDocs
        ⟨["x", "y"], some [some [1, 2, 3]], none, none⟩ =
        .error (.lengthMismatchError msg)) ↔
      hasLengthMismatch ⟨["x", "y"], some [some [1, 2, 3]], none, none⟩) ∧
    (¬ hasLengthMismatch ⟨["x", "y"], some [some [1, 2, 3]], none, none⟩ →
      ∃ docs : List ChromaDoc, parallelArraysToDocs
          ⟨["x", "y"], some [some [1, 2, 3]], none, none⟩ = .ok docs ∧
        docs.length = (["x", "y"] : List String).length ∧
        (∀ (i : Nat) (id_i : String), (["x", "y"] : List String)[i]? = some id_i →
          docs[i]? = some
            (⟨id_i, ((some [some [1, 2, 3]] :
                Option (List (Option (List Int)))).bind fun l => l[i]?).join,
              ((none : Option (List (Option Metadata))).bind fun l => l[i]?).join,
              ((none : Option (List (Option String))).bind fun l => l[i]?).join⟩ : ChromaDoc)) ∧
        ((some [some [1, 2, 3]] : Option (List (Option (List Int)))) = none →
          ∀ d ∈ docs, d.embedding = none) ∧
        ((none : Option (List (Option Metadata))) = none →
          ∀ d ∈ docs, d.metadata = none) ∧
        ((none : Option (List (Option String))) = none →
          ∀ d ∈ docs, d.contents = none)) :=
  parallelArraysToDocs_spec ⟨["x", "y"], some [some [1, 2, 3]], none, none⟩

section ResolveLemmas

/-- If some document lacks both contents (in the JS-falsy sense) and an
embedding, `computeEmbeddings` fails with the missing-content error
naming the offending documents' ids in input order, without calling the
capability. -/
lemma computeEmbeddings_missing_error (docs : List BaseChromaDoc)
    (gen : List String → List (List Int))
    (h : ∃ d ∈ docs, missingBoth d = true) :
    computeEmbeddings docs gen =
      (.error (.missingContentError
        ("The following documents have neither contents nor embeddings: " ++
          renderIds ((docs.filter missingBoth).map BaseChromaDoc.id))), []) := by
  obtain ⟨d, hd, hb⟩ := h
  have hmem : d ∈ docs.filter missingBoth := List.mem_filter.mpr ⟨hd, hb⟩
  have hlen : (docs.filter missingBoth).length > 0 :=
    List.length_pos.mpr (List.ne_nil_of_mem hmem)
  rw [computeEmbeddings, if_pos hlen]

/-- If every document passes the content validation, the first filter of
`computeEmbeddings` is empty. -/
lemma filter_missingBoth_nil (docs : List BaseChromaDoc)
    (h : ∀ d ∈ docs, missingBoth d = false) :
    docs.filter missingBoth = [] :=
  List.filter_eq_nil_iff.mpr fun d hd => by simp [h d hd]

lemma assignEmbeddings_length (docs : List BaseChromaDoc)
    (vecs : List (List Int)) :
    (assignEmbeddings docs vecs).length = docs.length := by
  induction docs generalizing vecs with
  | nil => rfl
  | cons d ds ih =>
    by_cases h : d.embedding.isNone <;> simp [assignEmbeddings, h, ih]

/-- Pointwise description of the assignment loop: the document at
position `i` keeps all its fields, and, if it was embedding-less, gains
the generated vector whose index is its rank among the embedding-less
documents. -/
lemma assignEmbeddings_getElem? (docs : List BaseChromaDoc)
    (vecs : List (List Int)) (i : Nat) :
    (assignEmbeddings docs vecs)[i]? =
      (docs[i]?).map fun d =>
        if d.embedding.isNone then
          { d with embedding := vecs[missingRank docs i]? }
        else d := by
  induction docs generalizing vecs i with
  | nil => simp [assignEmbeddings]
  | cons d ds ih =>
    by_cases h : d.embedding.isNone
    · rw [assignEmbeddings, if_pos h]
      cases i with
      | zero =>
        have he : d.embedding = none := by simpa using h
        simp [missingRank, he, List.head?_eq_getElem?]
      | succ i =>
        rw [List.getElem?_cons_succ, ih, List.getElem?_cons_succ]
        have hrank : missingRank (d :: ds) (i + 1) = missingRank ds i + 1 := by
          simp [missingRank, List.take_succ_cons, List.filter_cons,
            missingEmbedding, h]
        rw [hrank]
        cases hds : ds[i]? with
        | none => rfl
        | some d2 => simp [List.getElem?_tail]
    · rw [assignEmbeddings, if_neg h]
      cases i with
      | zero =>
        have he : d.embedding ≠ none := by simpa using h
        simp [he]
      | succ i =>
        rw [List.getElem?_cons_succ, ih, List.getElem?_cons_succ]
        have hrank : missingRank (d :: ds) (i + 1) = missingRank ds i := by
          simp [missingRank, List.take_succ_cons, List.filter_cons,
            missingEmbedding, h]
        rw [hrank]

/-- When validation passes and at least one document lacks an embedding,
`computeEmbeddings` makes exactly one capability call, on the contents of
the embedding-less documents in their relative input order. -/
lemma computeEmbeddings_generates (docs : List BaseChromaDoc)
    (gen : List String → List (List Int))
    (hvalid : ∀ d ∈ docs, missingBoth d = false)
    (hmiss : ∃ d ∈ docs, d.embedding = none) :
    computeEmbeddings docs gen =
      (.ok (assignEmbeddings docs
          (gen ((docs.filter missingEmbedding).map fun d => d.contents.getD ""))),
        [(docs.filter missingEmbedding).map fun d => d.contents.getD ""]) := by
  obtain ⟨d, hd, he⟩ := hmiss
  have hmem : d ∈ docs.filter missingEmbedding :=
    List.mem_filter.mpr ⟨hd, by simp [missingEmbedding, he]⟩
  have hlen : (docs.filter missingEmbedding).length ≠ 0 :=
    Nat.pos_iff_ne_zero.mp (List.length_pos.mpr (List.ne_nil_of_mem hmem))
  rw [computeEmbeddings, filter_missingBoth_nil docs hvalid]
  simp only [List.length_nil, gt_iff_lt, lt_self_iff_false, if_false]
  rw [if_neg hlen]

end ResolveLemmas

/-- C4: when every document passes content validation and at least one
lacks an embedding, `computeEmbeddings` calls the capability exactly once,
on the contents of exactly the embedding-less documents in their relative
input order; the result keeps the input's length and order, leaves
already-embedded documents unchanged, and gives the document of rank `k`
among the embedding-less ones the `k`-th generated vector. -/
theorem computeEmbeddings_resolves (docs : List BaseChromaDoc)
    (gen : List String → List (List Int))
    (hvalid : ∀ d ∈ docs, missingBoth d = false)
    (hmiss : ∃ d ∈ docs, d.embedding = none) :
    ∃ out : List BaseChromaDoc,
      computeEmbeddings docs gen =
        (.ok out, [(docs.filter missingEmbedding).map fun d => d.contents.getD ""]) ∧
      out.length = docs.length ∧
      (∀ (i : Nat) (d : BaseChromaDoc), docs[i]? = some d →
        (d.embedding ≠ none → out[i]? = some d) ∧
        (d.embedding = none → out[i]? = some
          { d with embedding :=
              (gen ((docs.filter missingEmbedding).map fun d2 =>
                d2.contents.getD ""))[missingRank docs i]? })) := by
  refine ⟨_, computeEmbeddings_generates docs gen hvalid hmiss,
    assignEmbeddings_length docs _, ?_⟩
  intro i d hd
  constructor
  · intro hne
    rw [assignEmbeddings_getElem?, hd]
    simp [Option.isNone_iff_eq_none, hne]
  · intro he
    rw [assignEmbeddings_getElem?, hd]
    simp [he]

/-- C4 witness: two documents, the first already embedded and the second
contents-only; the capability is called once on `["x"]` and its vector
lands on the second document. -/
theorem computeEmbeddings_resolves_witness :
    ∃ out : List BaseChromaDoc,
      computeEmbeddings
          [⟨some "a", some [1], none, none⟩, ⟨some "b", none, none, some "x"⟩]
          (fun _ => [[9]]) =
        (.ok out,
          [(([⟨some "a", some [1], none, none⟩,
            ⟨some "b", none, none, some "x"⟩] :
              List BaseChromaDoc).filter missingEmbedding).map fun d =>
            d.contents.getD ""]) ∧
      out.length =
        ([⟨some "a", some [1], none, none⟩, ⟨some "b", none, none, some "x"⟩] :
          List BaseChromaDoc).length ∧
      (∀ (i : Nat) (d : BaseChromaDoc),
        ([⟨some "a", some [1], none, none⟩, ⟨some "b", none, none, some "x"⟩] :
          List BaseChromaDoc)[i]? = some d →
        (d.embedding ≠ none → out[i]? = some d) ∧
        (d.embedding = none → out[i]? = some
          { d with embedding :=
              ((fun _ => [[9]] : List String → List (List Int))
                ((([⟨some "a", some [1], none, none⟩,
                  ⟨some "b", none, none, some "x"⟩] :
                    List BaseChromaDoc).filter missingEmbedding).map fun d2 =>
                  d2.contents.getD ""))[missingRank
                    [⟨some "a", some [1], none, none⟩,
                      ⟨some "b", none, none, some "x"⟩] i]? })) :=
  computeEmbeddings_resolves
    [⟨some "a", some [1], none, none⟩, ⟨some "b", none, none, some "x"⟩]
    (fun _ => [[9]]) (by decide) ⟨⟨some "b", none, none, some "x"⟩, by decide, rfl⟩

/-- C5 counterexample: the claim says the error identifies an id-less
offending document by its position.  The code maps offenders to
`doc.id` and joins them, rendering an absent id as the empty string, so
the very same error is produced whether the id-less offender sits at
position 0 or at position 1 — the error carries no position information,
and the offending document's entry in the message is empty. -/
theorem missingContent_error_has_no_position :
    computeEmbeddings [⟨none, none, none, none⟩] (fun _ => []) =
      (.error (.missingContentError
        "The following documents have neither contents nor embeddings: "), []) ∧
    computeEmbeddings
        [⟨some "g", some [1], none, none⟩, ⟨none, none, none, none⟩]
        (fun _ => []) =
      (.error (.missingContentError
        "The following documents have neither contents nor embeddings: "), []) :=
  ⟨rfl, rfl⟩

/-- C5 (amended): for a sequence containing a document with neither
contents (in the JS-falsy sense) nor an embedding, `computeEmbeddings`
fails with `MissingContentError` listing the offending documents' ids in
input order — an absent id is rendered as the empty string, positions are
not reported — and the embedding capability is not invoked. -/
theorem computeEmbeddings_missing_content (docs : List BaseChromaDoc)
    (gen : List String → List (List Int))
    (h : ∃ d ∈ docs, missingBoth d = true) :
    computeEmbeddings docs gen =
      (.error (.missingContentError
        ("The following documents have neither contents nor embeddings: " ++
          renderIds ((docs.filter missingBoth).map BaseChromaDoc.id))), []) :=
  computeEmbeddings_missing_error docs gen h

/-- C5 witness: the spec's scenario `resolve([{id:"d1"}], capability)`. -/
theorem computeEmbeddings_missing_content_witness :
    computeEmbeddings [⟨some "d1", none, none, none⟩] (fun _ => []) =
      (.error (.missingContentError
        ("The following documents have neither contents nor embeddings: " ++
          renderIds ((([⟨some "d1", none, none, none⟩] :
            List BaseChromaDoc).filter missingBoth).map BaseChromaDoc.id))), []) :=
  computeEmbeddings_missing_content [⟨some "d1", none, none, none⟩]
    (fun _ => []) ⟨⟨some "d1", none, none, none⟩, by decide, rfl⟩

/-- C7: on a sequence in which every document already carries an
embedding, `computeEmbeddings` returns its input unchanged with zero
capability calls, and a second application (to the first call's output)
again performs zero capability calls. -/
theorem computeEmbeddings_idempotent (docs : List BaseChromaDoc)
    (gen : List String → List (List Int))
    (h : ∀ d ∈ docs, d.embedding.isSome) :
    computeEmbeddings docs gen = (.ok docs, []) ∧
    (∀ out : List BaseChromaDoc, (computeEmbeddings docs gen).1 = .ok out →
      computeEmbeddings out gen = (.ok out, [])) := by
  have hboth : ∀ d ∈ docs, missingBoth d = false := by
    intro d hd
    have hs := h d hd
    cases hemb : d.embedding with
    | none => rw [hemb] at hs; exact absurd hs (by simp)
    | some v => simp [missingBoth, hemb]
  have hfirst : computeEmbeddings docs gen = (.ok docs, []) := by
    rw [computeEmbeddings, filter_missingBoth_nil docs hboth]
    have hmiss : docs.filter missingEmbedding = [] := by
      refine List.filter_eq_nil_iff.mpr fun d hd => ?_
      have hs := h d hd
      cases hemb : d.embedding with
      | none => rw [hemb] at hs; exact absurd hs (by simp)
      | some v => simp [missingEmbedding, hemb]
    simp [hmiss]
  refine ⟨hfirst, fun out hout => ?_⟩
  rw [hfirst] at hout
  cases hout
  exact hfirst

/-- C7 witness. -/
theorem computeEmbeddings_idempotent_witness :
    computeEmbeddings [⟨some "a", some [1, 2], none, some "c"⟩]
        (fun _ => [[7]]) =
      (.ok [⟨some "a", some [1, 2], none, some "c"⟩], []) ∧
    (∀ out : List BaseChromaDoc,
      (computeEmbeddings [⟨some "a", some [1, 2], none, some "c"⟩]
        (fun _ => [[7]])).1 = .ok out →
      computeEmbeddings out (fun _ => [[7]]) = (.ok out, [])) :=
  computeEmbeddings_idempotent [⟨some "a", some [1, 2], none, some "c"⟩]
    (fun _ => [[7]]) (by decide)

/-- C10: a document whose contents is the empty string and whose
embedding is absent is treated as content-less (JS falsiness of `""`):
`computeEmbeddings` fails with `MissingContentError` even though the
contents field is present, and the capability receives no call, so the
document's contents is never submitted to it. -/
theorem computeEmbeddings_empty_contents (docs : List BaseChromaDoc)
    (gen : List String → List (List Int)) (d : BaseChromaDoc)
    (hd : d ∈ docs) (hc : d.contents = some "") (he : d.embedding = none) :
    ∃ msg, computeEmbeddings docs gen = (.error (.missingContentError msg), []) :=
  ⟨_, computeEmbeddings_missing_error docs gen
    ⟨d, hd, by simp [missingBoth, jsFalsyStr, hc, he]⟩⟩

/-- C10 witness. -/
theorem computeEmbeddings_empty_contents_witness :
    ∃ msg, computeEmbeddings [⟨some "d1", none, none, some ""⟩]
        (fun _ => [[5]]) =
      (.error (.missingContentError msg), []) :=
  computeEmbeddings_empty_contents [⟨some "d1", none, none, some ""⟩]
    (fun _ => [[5]]) ⟨some "d1", none, none, some ""⟩ (by decide) rfl rfl

section QueryLemmas

/-- `queryEntryInput` never reads the distances field. -/
lemma queryEntryInput_distances (resp : QueryResponse)
    (ds : Option (List (List Int))) (index : Nat) (ids : List String) :
    queryEntryInput { resp with distances := ds } index ids =
      queryEntryInput resp index ids := rfl

/-- Inversion of a successful `buildBundle`: the per-query arrays decoded,
the query doc is the one at the bundle's index, the ranked results list
the decoded documents in order, and each distance is
`distances?.[index]?.[i] ?? 0`. -/
lemma buildBundle_ok (resolvedDocs : List BaseChromaDoc)
    (resp : QueryResponse) (index : Nat) (ids : List String)
    (b : SingleQueryResult)
    (h : buildBundle resolvedDocs resp index ids = .ok b) :
    ∃ docs : List ChromaDoc,
      parallelArraysToDocs (queryEntryInput resp index ids) = .ok docs ∧
      b.queryDoc = resolvedDocs[index]? ∧
      b.results.map RankedResult.doc = docs ∧
      ∀ (i : Nat) (r : RankedResult), b.results[i]? = some r →
        r.distance =
          ((resp.distances.bind fun l => l[index]?).bind fun ds => ds[i]?).getD 0 := by
  rw [buildBundle] at h
  cases hdec : parallelArraysToDocs (queryEntryInput resp index ids) with
  | error e => rw [hdec] at h; cases h
  | ok docs =>
    rw [hdec] at h
    cases h
    refine ⟨docs, rfl, rfl, ?_, ?_⟩
    · refine List.ext_getElem? fun i => ?_
      rw [List.getElem?_map, List.getElem?_mapIdx]
      cases docs[i]? <;> rfl
    · intro i r hr
      rw [List.getElem?_mapIdx] at hr
      cases hd : docs[i]? with
      | none => rw [hd] at hr; cases hr
      | some d =>
        rw [hd] at hr
        cases hr
        rfl

/-- A successful `buildBundle` stays successful whatever the distances
field holds: a short or absent distances sequence never causes an error. -/
lemma buildBundle_ok_of_distances (resolvedDocs : List BaseChromaDoc)
    (resp : QueryResponse) (index : Nat) (ids : List String)
    (b : SingleQueryResult)
    (h : buildBundle resolvedDocs resp index ids = .ok b)
    (ds : Option (List (List Int))) :
    ∃ b2, buildBundle resolvedDocs { resp with distances := ds } index ids =
      .ok b2 := by
  rw [buildBundle, queryEntryInput_distances] at h ⊢
  cases hdec : parallelArraysToDocs (queryEntryInput resp index ids) with
  | error e => rw [hdec] at h; cases h
  | ok docs => exact ⟨_, rfl⟩

/-- Inversion of the indexed bundle traversal: on success there is one
bundle per response entry, and the bundle at offset `i` is the successful
`buildBundle` of the entry at offset `i`. -/
lemma buildBundlesGo_ok (resolvedDocs : List BaseChromaDoc)
    (resp : QueryResponse) :
    ∀ (l : List (List String)) (k : Nat) (bs : List SingleQueryResult),
      buildBundlesGo resolvedDocs resp k l = .ok bs →
      bs.length = l.length ∧
      ∀ (i : Nat) (ids_i : List String), l[i]? = some ids_i →
        ∃ b, bs[i]? = some b ∧
          buildBundle resolvedDocs resp (k + i) ids_i = .ok b
  | [], k, bs, h => by
    cases h
    exact ⟨rfl, fun i ids_i h2 => by cases h2⟩
  | ids :: rest, k, bs, h => by
    rw [buildBundlesGo] at h
    cases hb : buildBundle resolvedDocs resp k ids with
    | error e => rw [hb] at h; cases h
    | ok b =>
      rw [hb] at h
      cases hrest : buildBundlesGo resolvedDocs resp (k + 1) rest with
      | error e => rw [hrest] at h; cases h
      | ok bs2 =>
        rw [hrest] at h
        cases h
        obtain ⟨hlen, hpt⟩ := buildBundlesGo_ok resolvedDocs resp rest (k + 1) bs2 hrest
        refine ⟨by simp [hlen], ?_⟩
        intro i ids_i hi
        cases i with
        | zero =>
          rw [List.getElem?_cons_zero] at hi
          cases hi
          exact ⟨b, List.getElem?_cons_zero, hb⟩
        | succ i =>
          rw [List.getElem?_cons_succ] at hi
          obtain ⟨b2, hb2, hbb2⟩ := hpt i ids_i hi
          refine ⟨b2, by simpa using hb2, ?_⟩
          have : k + 1 + i = k + (i + 1) := by omega
          rw [← this]
          exact hbb2

end QueryLemmas

/-- C9: within a successful result bundle, each ranked result's distance
is the server-returned distance at that (query, position) when the
distances sequence provides one, and the numeric zero `0` when the
distances sequence is absent or too short at that position; a shortfall
of the distances field never turns a successful bundle into an error. -/
theorem bundle_distances (resolvedDocs : List BaseChromaDoc)
    (resp : QueryResponse) (index : Nat) (ids : List String)
    (b : SingleQueryResult)
    (h : buildBundle resolvedDocs resp index ids = .ok b) :
    (∀ (i : Nat) (r : RankedResult) (d : Int), b.results[i]? = some r →
      ((resp.distances.bind fun l => l[index]?).bind fun ds => ds[i]?) = some d →
      r.distance = d) ∧
    (∀ (i : Nat) (r : RankedResult), b.results[i]? = some r →
      ((resp.distances.bind fun l => l[index]?).bind fun ds => ds[i]?) = none →
      r.distance = 0) ∧
    (∀ ds : Option (List (List Int)),
      ∃ b2, buildBundle resolvedDocs { resp with distances := ds } index ids =
        .ok b2) := by
  obtain ⟨docs, _, _, _, hdist⟩ := buildBundle_ok resolvedDocs resp index ids b h
  refine ⟨?_, ?_, buildBundle_ok_of_distances resolvedDocs resp index ids b h⟩
  · intro i r d hr hd
    rw [hdist i r hr, hd]
    rfl
  · intro i r hr hd
    rw [hdist i r hr, hd]
    rfl

/-- C9 witness: one query with two neighbors but a single server
distance; the first ranked result carries the server's distance `5`, the
second falls back to `0`, and replacing the distances field never breaks
the bundle. -/
theorem bundle_distances_witness :
    (∀ (i : Nat) (r : RankedResult) (d : Int),
      ((⟨none,
          [⟨⟨"x", none, none, none⟩, 5⟩, ⟨⟨"y", none, none, none⟩, 0⟩]⟩ :
            SingleQueryResult)).results[i]? = some r →
      (((some [[5]] : Option (List (List Int))).bind fun l => l[0]?).bind
        fun ds => ds[i]?) = some d →
      r.distance = d) ∧
    (∀ (i : Nat) (r : RankedResult),
      ((⟨none,
          [⟨⟨"x", none, none, none⟩, 5⟩, ⟨⟨"y", none, none, none⟩, 0⟩]⟩ :
            SingleQueryResult)).results[i]? = some r →
      (((some [[5]] : Option (List (List Int))).bind fun l => l[0]?).bind
        fun ds => ds[i]?) = none →
      r.distance = 0) ∧
    (∀ ds : Option (List (List Int)),
      ∃ b2, buildBundle []
          ⟨[["x", "y"]], none, none, none, ds⟩ 0 ["x", "y"] = .ok b2) :=
  bundle_distances [] ⟨[["x", "y"]], none, none, none, some [[5]]⟩ 0 ["x", "y"]
    ⟨none, [⟨⟨"x", none, none, none⟩, 5⟩, ⟨⟨"y", none, none, none⟩, 0⟩]⟩ rfl

/-- C6: for a batch whose resolution succeeds and a response whose
entries all decode, the result is the full bundle list, one bundle per
response entry; the bundle at position `i` is built from the `i`-th
response entry — its query doc is the `i`-th resolved query document and
its ranked results are exactly the documents decoded from that entry, in
the server response's order (no re-sorting). -/
theorem queryDocuments_order (qs : List DocQuery)
    (gen : List String → List (List Int))
    (api : List (Option (List Int)) → QueryResponse)
    (resolved : List BaseChromaDoc) (calls : List (List String))
    (bundles : List SingleQueryResult)
    (hres : computeEmbeddings (qs.map docQueryToQueryDoc) gen = (.ok resolved, calls))
    (hbb : buildBundles resolved (api (resolved.map BaseChromaDoc.embedding)) =
      .ok bundles) :
    queryDocuments (.batch qs) gen api = (.ok (.multi bundles), calls) ∧
    bundles.length = (api (resolved.map BaseChromaDoc.embedding)).ids.length ∧
    ∀ (i : Nat) (ids_i : List String),
      (api (resolved.map BaseChromaDoc.embedding)).ids[i]? = some ids_i →
      ∃ (b : SingleQueryResult) (docs : List ChromaDoc),
        bundles[i]? = some b ∧
        parallelArraysToDocs
          (queryEntryInput (api (resolved.map BaseChromaDoc.embedding)) i ids_i) =
          .ok docs ∧
        b.queryDoc = resolved[i]? ∧
        b.results.map RankedResult.doc = docs := by
  obtain ⟨hlen, hpt⟩ := buildBundlesGo_ok resolved
    (api (resolved.map BaseChromaDoc.embedding))
    (api (resolved.map BaseChromaDoc.embedding)).ids 0 bundles hbb
  refine ⟨?_, hlen, ?_⟩
  · rw [queryDocuments]
    simp only [toArray, hres, hbb]
    rfl
  · intro i ids_i hi
    obtain ⟨b, hb, hbuild⟩ := hpt i ids_i hi
    rw [Nat.zero_add] at hbuild
    obtain ⟨docs, hdec, hqd, hmap, _⟩ := buildBundle_ok resolved
      (api (resolved.map BaseChromaDoc.embedding)) i ids_i b hbuild
    exact ⟨b, docs, hb, hdec, hqd, hmap⟩

/-- C6 witness: a two-query batch against a two-entry response; bundle 0
pairs the first resolved query with the first entry, bundle 1 the second
with the second, results in server order. -/
theorem queryDocuments_order_witness :
    queryDocuments (.batch [.text "a", .text "b"])
        (fun _ => [[1], [2]])
        (fun _ => ⟨[["r1"], ["r2"]], none, none, none, some [[4], [6]]⟩) =
      (.ok (.multi
        [⟨some ⟨none, some [1], none, some "a"⟩,
            [⟨⟨"r1", none, none, none⟩, 4⟩]⟩,
          ⟨some ⟨none, some [2], none, some "b"⟩,
            [⟨⟨"r2", none, none, none⟩, 6⟩]⟩]),
        [["a", "b"]]) ∧
    ([⟨some ⟨none, some [1], none, some "a"⟩,
        [⟨⟨"r1", none, none, none⟩, 4⟩]⟩,
      ⟨some ⟨none, some [2], none, some "b"⟩,
        [⟨⟨"r2", none, none, none⟩, 6⟩]⟩] :
      List SingleQueryResult).length = 2 ∧
    ∀ (i : Nat) (ids_i : List String),
      (([["r1"], ["r2"]] : List (List String)))[i]? = some ids_i →
      ∃ (b : SingleQueryResult) (docs : List ChromaDoc),
        ([⟨some ⟨none, some [1], none, some "a"⟩,
            [⟨⟨"r1", none, none, none⟩, 4⟩]⟩,
          ⟨some ⟨none, some [2], none, some "b"⟩,
            [⟨⟨"r2", none, none, none⟩, 6⟩]⟩] :
          List SingleQueryResult)[i]? = some b ∧
        parallelArraysToDocs
          (queryEntryInput ⟨[["r1"], ["r2"]], none, none, none, some [[4], [6]]⟩
            i ids_i) = .ok docs ∧
        b.queryDoc = ([⟨none, some [1], none, some "a"⟩,
          ⟨none, some [2], none, some "b"⟩] : List BaseChromaDoc)[i]? ∧
        b.results.map RankedResult.doc = docs :=
  queryDocuments_order [.text "a", .text "b"]
    (fun _ => [[1], [2]])
    (fun _ => ⟨[["r1"], ["r2"]], none, none, none, some [[4], [6]]⟩)
    [⟨none, some [1], none, some "a"⟩, ⟨none, some [2], none, some "b"⟩]
    [["a", "b"]]
    [⟨some ⟨none, some [1], none, some "a"⟩,
        [⟨⟨"r1", none, none, none⟩, 4⟩]⟩,
      ⟨some ⟨none, some [2], none, some "b"⟩,
        [⟨⟨"r2", none, none, none⟩, 6⟩]⟩]
    rfl rfl

/-- C3 counterexample: the claim says every single (non-batch) `DocQuery`
input — including a raw embedding vector — yields a single unwrapped
result bundle.  But the unwrapping decision is `Array.isArray(query)`,
and a raw embedding vector is a JS array, so a single vector query comes
back batch-shaped (a one-element sequence), which callers can distinguish
from the unwrapped form. -/
theorem single_vector_query_not_unwrapped :
    queryDocuments (.single (.vec [1, 2])) (fun _ => [])
        (fun _ => ⟨[["r"]], none, none, none, none⟩) =
      (.ok (.multi [⟨some ⟨none, some [1, 2], none, none⟩,
        [⟨⟨"r", none, none, none⟩, 0⟩]⟩]), []) ∧
    isSingleResult (.multi [⟨some ⟨none, some [1, 2], none, none⟩,
      [⟨⟨"r", none, none, none⟩, 0⟩]⟩]) = false :=
  ⟨rfl, rfl⟩

/-- C3 (amended): the result shape is decided by `Array.isArray` on the
input value, not by a caller flag.  A single free-text or explicit
query-doc input yields the single unwrapped bundle; a batch input yields
the bundle sequence, one bundle per response entry in order; but a single
raw embedding vector is itself an array, so it too yields the
batch-shaped result. -/
theorem queryDocuments_shape (q : QueryInput)
    (gen : List String → List (List Int))
    (api : List (Option (List Int)) → QueryResponse)
    (resolved : List BaseChromaDoc) (calls : List (List String))
    (bundles : List SingleQueryResult)
    (hres : computeEmbeddings ((toArray q).map docQueryToQueryDoc) gen =
      (.ok resolved, calls))
    (hbb : buildBundles resolved (api (resolved.map BaseChromaDoc.embedding)) =
      .ok bundles) :
    (∀ s : String, q = .single (.text s) →
      queryDocuments q gen api = (.ok (.single bundles[0]?), calls)) ∧
    (∀ d : BaseChromaDoc, q = .single (.doc d) →
      queryDocuments q gen api = (.ok (.single bundles[0]?), calls)) ∧
    (∀ e : List Int, q = .single (.vec e) →
      queryDocuments q gen api = (.ok (.multi bundles), calls)) ∧
    (∀ qs : List DocQuery, q = .batch qs →
      queryDocuments q gen api = (.ok (.multi bundles), calls) ∧
      bundles.length = (api (resolved.map BaseChromaDoc.embedding)).ids.length) := by
  have hgen : queryDocuments q gen api =
      (.ok (if jsIsArray q then .multi bundles else .single bundles[0]?), calls) := by
    rw [queryDocuments]
    simp only [hres, hbb]
  refine ⟨?_, ?_, ?_, ?_⟩
  · rintro s rfl
    rw [hgen]
    rfl
  · rintro d rfl
    rw [hgen]
    rfl
  · rintro e rfl
    rw [hgen]
    rfl
  · rintro qs rfl
    refine ⟨by rw [hgen]; rfl, ?_⟩
    exact (buildBundlesGo_ok resolved (api (resolved.map BaseChromaDoc.embedding))
      (api (resolved.map BaseChromaDoc.embedding)).ids 0 bundles hbb).1

/-- C3 witness: the spec's single free-text scenario returns the
unwrapped bundle. -/
theorem queryDocuments_shape_witness :
    queryDocuments (.single (.text "doc1")) (fun _ => [[3]])
        (fun _ => ⟨[["r"]], none, none, none, some [[7]]⟩) =
      (.ok (.single (([⟨some ⟨none, some [3], none, some "doc1"⟩,
          [⟨⟨"r", none, none, none⟩, 7⟩]⟩] :
          List SingleQueryResult))[0]?), [["doc1"]]) :=
  (queryDocuments_shape (.single (.text "doc1")) (fun _ => [[3]])
    (fun _ => ⟨[["r"]], none, none, none, some [[7]]⟩)
    [⟨none, some [3], none, some "doc1"⟩] [["doc1"]]
    [⟨some ⟨none, some [3], none, some "doc1"⟩,
      [⟨⟨"r", none, none, none⟩, 7⟩]⟩]
    rfl rfl).1 "doc1" rfl

end Chroma

